import Mathlib

/-!
Shallow embedding of the streaming benchmark engine of the `Ai-speedometer`
CLI (`src/cli.js`), covering the direct-REST streaming path:
`benchmarkSingleModelRest`, the per-provider stream decoders, the token
accounting fallback, the parallel orchestrator `runRestApiBenchmark`, the
ranking logic of `displayColorfulResults`, and the headless JSON output of
`runHeadlessBenchmark`.

Strings are modelled as `List Char` (the `TextDecoder` byte-to-text step is
abstracted to character chunks).  JavaScript numbers are modelled as `ℚ`
(token counts and throughputs; all arithmetic in these paths is exact) and
timestamps as `Int` (`Date.now()` differences).  `JSON.parse` is modelled by
an executable recursive-descent parser over the JSON subset that appears on
these streams (no exponent notation, no `\u` escapes); a line whose payload
falls outside the subset is simply skipped, exactly like a malformed line.
-/

/-- JavaScript whitespace recognised by `String.prototype.trim`
(the characters that occur in SSE streams). -/
def isJsWs (c : Char) : Bool :=
  c = ' ' || c = '\t' || c = '\n' || c = '\r' || c = '\x0b' || c = '\x0c'

/-- Model of `line.trim()`. -/
def jsTrim (s : List Char) : List Char :=
  ((s.dropWhile isJsWs).reverse.dropWhile isJsWs).reverse

/-- Model of `Math.round(n / 4)` for a natural character count `n`
(rounds half away from zero, here half up). -/
def jsRound4 (n : Nat) : ℚ := ((n + 2) / 4 : Nat)

/-- Model of `buffer.split('\n')`: the list of newline-separated segments;
always non-empty, and one segment more than there are newlines. -/
def splitNL : List Char → List (List Char)
  | [] => [[]]
  | c :: cs =>
    if c = '\n' then [] :: splitNL cs
    else (c :: (splitNL cs).headD []) :: (splitNL cs).tail

/-- The last segment of a (non-empty) segment list, with `[]` default:
the value of `lines.pop() || ''`. -/
def lastSeg : List (List Char) → List Char
  | [] => []
  | [x] => x
  | _ :: x :: xs => lastSeg (x :: xs)

/-- The complete lines of a stream text: everything `split('\n')` yields
except the trailing segment (which the decoder keeps in its buffer). -/
def completeLines (s : List Char) : List (List Char) :=
  (splitNL s).dropLast

/-- JSON values as produced by `JSON.parse`. -/
inductive Json where
  | null : Json
  | bool : Bool → Json
  | num : ℚ → Json
  | str : List Char → Json
  | arr : List Json → Json
  | obj : List (List Char × Json) → Json

/-- Object member lookup; on duplicate keys the later member wins,
as in `JSON.parse`. -/
def lookupField : List (List Char × Json) → List Char → Option Json
  | [], _ => none
  | (k, v) :: fs, key =>
    match lookupField fs key with
    | some v' => some v'
    | none => if k = key then some v else none

/-- Model of property access `j[key]` on a parsed JSON value. -/
def Json.getField : Json → List Char → Option Json
  | Json.obj fs, key => lookupField fs key
  | _, _ => none

/-- Model of index access `j[n]` on a parsed JSON array. -/
def Json.getIdx : Json → Nat → Option Json
  | Json.arr xs, n => xs.get? n
  | _, _ => none

/-- JavaScript truthiness of a JSON value. -/
def jsTruthy : Json → Bool
  | Json.null => false
  | Json.bool b => b
  | Json.num q => decide (q ≠ 0)
  | Json.str s => decide (s ≠ [])
  | Json.arr _ => true
  | Json.obj _ => true

/-- Skip JSON whitespace. -/
def skipWs : List Char → List Char
  | c :: cs => if c = ' ' || c = '\t' || c = '\n' || c = '\r' then skipWs cs else c :: cs
  | [] => []

/-- Parse the body of a JSON string after the opening quote, handling the
single-character escapes; returns the content and the rest of the input. -/
def parseStringBody : Nat → List Char → Option (List Char × List Char)
  | 0, _ => none
  | _, [] => none
  | fuel + 1, c :: cs =>
    if c = '"' then some ([], cs)
    else if c = '\\' then
      match cs with
      | [] => none
      | e :: cs' =>
        let esc : Option Char :=
          if e = '"' then some '"'
          else if e = '\\' then some '\\'
          else if e = '/' then some '/'
          else if e = 'n' then some '\n'
          else if e = 't' then some '\t'
          else if e = 'r' then some '\r'
          else if e = 'b' then some (Char.ofNat 8)
          else if e = 'f' then some (Char.ofNat 12)
          else none
        match esc with
        | some ch => (parseStringBody fuel cs').map (fun p => (ch :: p.1, p.2))
        | none => none
    else (parseStringBody fuel cs).map (fun p => (c :: p.1, p.2))

/-- Accumulate a digit run into a natural number. -/
def digitsToNat (ds : List Char) : Nat :=
  ds.foldl (fun a c => a * 10 + (c.toNat - 48)) 0

/-- Parse a JSON number (optional minus, digits, optional fraction). -/
def parseNumber (s : List Char) : Option (Json × List Char) :=
  let p : Bool × List Char := match s with
    | '-' :: rest => (true, rest)
    | _ => (false, s)
  let neg := p.1
  let ds := p.2.takeWhile Char.isDigit
  let r1 := p.2.dropWhile Char.isDigit
  if ds = [] then none
  else
    match r1 with
    | '.' :: r2 =>
      let fs := r2.takeWhile Char.isDigit
      let r3 := r2.dropWhile Char.isDigit
      if fs = [] then none
      else
        let q : ℚ := (digitsToNat ds : ℚ) + (digitsToNat fs : ℚ) / ((10 : ℚ) ^ fs.length)
        some (Json.num (if neg then -q else q), r3)
    | _ => some (Json.num (if neg then -(digitsToNat ds : ℚ) else (digitsToNat ds : ℚ)), r1)

mutual

/-- Parse one JSON value (fuelled recursive descent). -/
def parseValue : Nat → List Char → Option (Json × List Char)
  | 0, _ => none
  | fuel + 1, s =>
    match skipWs s with
    | [] => none
    | c :: cs =>
      if c = '"' then (parseStringBody (fuel + 1) cs).map (fun p => (Json.str p.1, p.2))
      else if c = '\x7b' then
        match skipWs cs with
        | '\x7d' :: r => some (Json.obj [], r)
        | cs' => (parseObjItems fuel cs').map (fun p => (Json.obj p.1, p.2))
      else if c = '[' then
        match skipWs cs with
        | ']' :: r => some (Json.arr [], r)
        | cs' => (parseArrayItems fuel cs').map (fun p => (Json.arr p.1, p.2))
      else if c = 't' then
        if cs.take 3 = ['r', 'u', 'e'] then some (Json.bool true, cs.drop 3) else none
      else if c = 'f' then
        if cs.take 4 = ['a', 'l', 's', 'e'] then some (Json.bool false, cs.drop 4) else none
      else if c = 'n' then
        if cs.take 3 = ['u', 'l', 'l'] then some (Json.null, cs.drop 3) else none
      else parseNumber (c :: cs)

/-- Parse the items of a JSON array after the opening bracket. -/
def parseArrayItems : Nat → List Char → Option (List Json × List Char)
  | 0, _ => none
  | fuel + 1, s => do
    let (v, r) ← parseValue fuel s
    match skipWs r with
    | ',' :: r' => (parseArrayItems fuel r').map (fun p => (v :: p.1, p.2))
    | ']' :: r' => some ([v], r')
    | _ => none

/-- Parse the members of a JSON object after the opening brace. -/
def parseObjItems : Nat → List Char → Option (List (List Char × Json) × List Char)
  | 0, _ => none
  | fuel + 1, s =>
    match skipWs s with
    | '"' :: cs => do
      let (k, r) ← parseStringBody (fuel + 1) cs
      match skipWs r with
      | ':' :: r' => do
        let (v, r'') ← parseValue fuel r'
        match skipWs r'' with
        | ',' :: r3 => (parseObjItems fuel r3).map (fun p => ((k, v) :: p.1, p.2))
        | '\x7d' :: r3 => some ([(k, v)], r3)
        | _ => none
      | _ => none
    | _ => none

end

/-- Model of `JSON.parse(s)`: parse a complete value with nothing but
whitespace after it. -/
def parseJson (s : List Char) : Option Json :=
  match parseValue (s.length + 1) s with
  | some (j, r) => if skipWs r = [] then some j else none
  | none => none

/-! ## Stream decoder (`benchmarkSingleModelRest`, lines 1820–1931) -/

/-- The mutable accumulators of the decode loop:
`streamedText`, `inputTokens`, `outputTokens`. -/
structure DecState where
  streamedText : List Char
  inputTokens : ℚ
  outputTokens : ℚ
  deriving DecidableEq

/-- Initial decoder accumulators (`'' , 0, 0`). -/
def initDec : DecState := { streamedText := [], inputTokens := 0, outputTokens := 0 }

/-- Model of `chunk.choices?.[0]?.delta?.content` under the truthiness test:
the delta text when it is a non-empty string. -/
def oaiContent (j : Json) : Option (List Char) :=
  match (((j.getField ("choices".toList)).bind (Json.getIdx · 0)).bind
      (Json.getField · ("delta".toList))).bind (Json.getField · ("content".toList)) with
  | some (Json.str s) => if s = [] then none else some s
  | _ => none

/-- Model of `chunk.usage?.<key>` as a numeric field. -/
def oaiUsageField (j : Json) (key : List Char) : Option ℚ :=
  match (j.getField ("usage".toList)).bind (Json.getField · key) with
  | some (Json.num n) => some n
  | _ => none

/-- The update `if (chunk.choices?.[0]?.delta?.content) streamedText += ...`. -/
def updContent (j : Json) (st : DecState) : DecState :=
  match oaiContent j with
  | some s => { st with streamedText := st.streamedText ++ s }
  | none => st

/-- The update `if (chunk.usage?.prompt_tokens) inputTokens = ...`. -/
def updInput (j : Json) (st : DecState) : DecState :=
  match oaiUsageField j ("prompt_tokens".toList) with
  | some n => if n ≠ 0 then { st with inputTokens := n } else st
  | none => st

/-- The update `if (chunk.usage?.completion_tokens) outputTokens = ...`. -/
def updOutput (j : Json) (st : DecState) : DecState :=
  match oaiUsageField j ("completion_tokens".toList) with
  | some n => if n ≠ 0 then { st with outputTokens := n } else st
  | none => st

/-- One complete line of an OpenAI-compatible SSE stream
(cli.js lines 1906–1925): returns the updated accumulators and whether the
`[DONE]` sentinel was hit (the `break`). -/
def oaiLineStep (st : DecState) (line : List Char) : DecState × Bool :=
  if jsTrim line = [] then (st, false)
  else if ("data: ".toList).isPrefixOf (jsTrim line) then
    if (jsTrim line).drop 6 = "[DONE]".toList then (st, true)
    else
      match parseJson ((jsTrim line).drop 6) with
      | none => (st, false)
      | some j => (updOutput j (updInput j (updContent j st)), false)
  else (st, false)

/-- Test `chunk.type === t` on a parsed Anthropic chunk. -/
def anthTypeIs (j : Json) (t : List Char) : Bool :=
  match j.getField ("type".toList) with
  | some (Json.str s) => s = t
  | _ => false

/-- Handle one parsed Anthropic chunk (the `if`/`else if` chain of
cli.js lines 1859–1872 and 1880–1891). -/
def anthChunkStep (st : DecState) (j : Json) : DecState :=
  if anthTypeIs j ("content_block_delta".toList) then
    match (j.getField ("delta".toList)).bind (Json.getField · ("text".toList)) with
    | some (Json.str s) => if s = [] then st else { st with streamedText := st.streamedText ++ s }
    | _ => st
  else if anthTypeIs j ("message_start".toList) then
    match (j.getField ("message".toList)).bind (Json.getField · ("usage".toList)) with
    | some u =>
      if jsTruthy u then
        { st with inputTokens := match u.getField ("input_tokens".toList) with
            | some (Json.num n) => n
            | _ => 0 }
      else st
    | none => st
  else if anthTypeIs j ("message_delta".toList) then
    let st' := match (j.getField ("usage".toList)).bind (Json.getField · ("output_tokens".toList)) with
      | some (Json.num n) => if n ≠ 0 then { st with outputTokens := n } else st
      | _ => st
    match (j.getField ("usage".toList)).bind (Json.getField · ("input_tokens".toList)) with
      | some (Json.num n) =>
        if n ≠ 0 ∧ st'.inputTokens = 0 then { st' with inputTokens := n } else st'
      | _ => st'
  else st

/-- One complete line of an Anthropic stream (cli.js lines 1851–1892):
`data: ` lines, ignored `event: ` lines, or bare JSON lines. -/
def anthLineStep (st : DecState) (line : List Char) : DecState × Bool :=
  if jsTrim line = [] then (st, false)
  else if ("data: ".toList).isPrefixOf (jsTrim line) then
    if (jsTrim line).drop 6 = "[DONE]".toList then (st, true)
    else
      match parseJson ((jsTrim line).drop 6) with
      | none => (st, false)
      | some j => (anthChunkStep st j, false)
  else if ("event: ".toList).isPrefixOf (jsTrim line) then (st, false)
  else
    match parseJson (jsTrim line) with
    | none => (st, false)
    | some j => (anthChunkStep st j, false)

/-- One complete line of a Google stream (cli.js lines 1893–1905):
NDJSON, no sentinel. -/
def googLineStep (st : DecState) (line : List Char) : DecState × Bool :=
  if jsTrim line = [] then (st, false)
  else
    match parseJson (jsTrim line) with
    | none => (st, false)
    | some j =>
      let st1 := match (((((j.getField ("candidates".toList)).bind (Json.getIdx · 0)).bind
          (Json.getField · ("content".toList))).bind (Json.getField · ("parts".toList))).bind
          (Json.getIdx · 0)).bind (Json.getField · ("text".toList)) with
        | some (Json.str s) => if s = [] then st else { st with streamedText := st.streamedText ++ s }
        | _ => st
      let st2 := match (j.getField ("usageMetadata".toList)).bind
          (Json.getField · ("promptTokenCount".toList)) with
        | some (Json.num n) => if n ≠ 0 then { st1 with inputTokens := n } else st1
        | _ => st1
      let st3 := match (j.getField ("usageMetadata".toList)).bind
          (Json.getField · ("candidatesTokenCount".toList)) with
        | some (Json.num n) => if n ≠ 0 then { st2 with outputTokens := n } else st2
        | _ => st2
      (st3, false)

/-- Dispatch on the string-compared provider type, as the source does. -/
def lineStep (pt : List Char) (st : DecState) (line : List Char) : DecState × Bool :=
  if pt = "anthropic".toList then anthLineStep st line
  else if pt = "google".toList then googLineStep st line
  else oaiLineStep st line

/-- Whether a trimmed line is the `data: [DONE]` sentinel. -/
def isDoneTrim (line : List Char) : Bool :=
  ("data: ".toList).isPrefixOf (jsTrim line) && (jsTrim line).drop 6 = "[DONE]".toList

/-- Whether a line is a `data: [DONE]` sentinel for the given provider
family (the Google decoder has no sentinel). -/
def isDoneLine (pt : List Char) (line : List Char) : Bool :=
  if pt = "google".toList then false else isDoneTrim line

/-- The payload string the decoder of the given provider family hands to
`JSON.parse` for this line, when the line reaches a parse at all (empty
lines, Anthropic `event: ` lines, non-`data: ` OpenAI-compatible lines and
the `[DONE]` sentinel never reach one). -/
def parsedPayload (pt : List Char) (line : List Char) : Option (List Char) :=
  if jsTrim line = [] then none
  else if pt = "anthropic".toList then
    if ("data: ".toList).isPrefixOf (jsTrim line) then
      if (jsTrim line).drop 6 = "[DONE]".toList then none
      else some ((jsTrim line).drop 6)
    else if ("event: ".toList).isPrefixOf (jsTrim line) then none
    else some (jsTrim line)
  else if pt = "google".toList then some (jsTrim line)
  else
    if ("data: ".toList).isPrefixOf (jsTrim line) then
      if (jsTrim line).drop 6 = "[DONE]".toList then none
      else some ((jsTrim line).drop 6)
    else none

/-- The `for (const line of lines)` loop over one chunk's complete lines,
with the `break` on the sentinel. -/
def runLines (pt : List Char) (st : DecState) : List (List Char) → DecState
  | [] => st
  | l :: ls =>
    match lineStep pt st l with
    | (st', true) => st'
    | (st', false) => runLines pt st' ls

/-- Decoder state across chunks: the line buffer plus the accumulators. -/
structure BufState where
  buffer : List Char
  dec : DecState
  deriving DecidableEq

/-- Feed one inbound chunk: append to the buffer, split on newline, keep the
trailing segment, process the complete lines (cli.js lines 1842–1930). -/
def feedChunk (pt : List Char) (bs : BufState) (chunk : List Char) : BufState :=
  let parts := splitNL (bs.buffer ++ chunk)
  { buffer := lastSeg parts, dec := runLines pt bs.dec parts.dropLast }

/-- Feed a whole sequence of chunks (the `while (true)` read loop).
The final buffer content is never processed. -/
def runChunks (pt : List Char) (bs : BufState) (chunks : List (List Char)) : BufState :=
  chunks.foldl (feedChunk pt) bs

/-! ## Benchmark orchestration (`benchmarkSingleModelRest`, lines 1724–1973) -/

/-- The provider configuration fields the benchmark reads
(`model.providerConfig`); an empty string models a missing/empty value,
which is falsy in the source's guards. -/
structure ProviderConfig where
  apiKey : List Char
  baseUrl : List Char
  deriving DecidableEq

/-- The fields of the `model` argument that `benchmarkSingleModelRest`
reads.  `providerType` is a string compared against `'anthropic'` and
`'google'`, as in the source. -/
structure MModel where
  name : List Char
  providerName : List Char
  providerType : List Char
  providerConfig : Option ProviderConfig
  deriving DecidableEq

/-- An HTTP response as observed by the benchmark: status information, the
error body text, and the sequence of inbound stream chunks, each tagged with
its `Date.now()` arrival timestamp. -/
structure HttpResponse where
  ok : Bool
  status : Nat
  statusText : List Char
  bodyText : List Char
  chunks : List (Int × List Char)
  deriving DecidableEq

/-- The outcome of the `fetch` call: a response, or a rejection
(connection/DNS/TLS failure) carrying its error message. -/
inductive FetchOutcome where
  | response : HttpResponse → FetchOutcome
  | networkError : List Char → FetchOutcome
  deriving DecidableEq

/-- One request's interaction with the outside world: the dispatch
timestamp, the fetch outcome, and the completion timestamp. -/
structure World where
  startTime : Int
  outcome : FetchOutcome
  endTime : Int
  deriving DecidableEq

/-- The benchmark result object.  The failure branch of the source builds an
object without the two `usedEstimate*` fields and without `error` on
success; those absent fields read as falsy/"no value" and are modelled as
`false` / `none`. -/
structure BenchmarkResult where
  model : List Char
  provider : List Char
  totalTime : Int
  timeToFirstToken : Int
  tokenCount : ℚ
  tokensPerSecond : ℚ
  promptTokens : ℚ
  totalTokens : ℚ
  usedEstimateForOutput : Bool
  usedEstimateForInput : Bool
  success : Bool
  error : Option (List Char)
  deriving DecidableEq

/-- The failure result built in the `catch` block (cli.js lines 1959–1972). -/
def failedResult (m : MModel) (msg : List Char) : BenchmarkResult :=
  { model := m.name, provider := m.providerName, totalTime := 0, timeToFirstToken := 0,
    tokenCount := 0, tokensPerSecond := 0, promptTokens := 0, totalTokens := 0,
    usedEstimateForOutput := false, usedEstimateForInput := false,
    success := false, error := some msg }

/-- The success object built at cli.js lines 1933–1957 from the timestamps
and the final decoder accumulators: timing, token-accounting fallback and
throughput. -/
def successResult (testPrompt : List Char) (m : MModel) (w : World)
    (r : HttpResponse) : BenchmarkResult :=
  let firstTokenTime : Option Int := r.chunks.head?.map Prod.fst
  let st := (runChunks m.providerType { buffer := [], dec := initDec }
    (r.chunks.map Prod.snd)).dec
  let totalTime : Int := w.endTime - w.startTime
  -- `firstTokenTime ? firstTokenTime - startTime : totalTime`: a numeric
  -- timestamp 0 is falsy in the source, like the initial null
  let timeToFirstToken : Int := match firstTokenTime with
    | some t => if t ≠ 0 then t - w.startTime else totalTime
    | none => totalTime
  let finalOutputTokens : ℚ :=
    if st.outputTokens ≠ 0 then st.outputTokens else jsRound4 st.streamedText.length
  let finalInputTokens : ℚ :=
    if st.inputTokens ≠ 0 then st.inputTokens else jsRound4 testPrompt.length
  let totalTokens := finalInputTokens + finalOutputTokens
  { model := m.name, provider := m.providerName, totalTime := totalTime,
    timeToFirstToken := timeToFirstToken, tokenCount := finalOutputTokens,
    tokensPerSecond := if totalTime > 0 then totalTokens / (totalTime : ℚ) * 1000 else 0,
    promptTokens := finalInputTokens, totalTokens := totalTokens,
    usedEstimateForOutput := st.outputTokens = 0,
    usedEstimateForInput := st.inputTokens = 0, success := true, error := none }

/-- The body of `benchmarkSingleModelRest` up to the `return` of the success
object; every `throw` (and the `fetch` rejection) becomes an `Except.error`
carrying the `error.message` the catch block would see.  Request
construction (URL, headers, body) has no observable effect on the result
and is elided; the non-ok branch reads the body (`await response.text()`)
but does not put it in the thrown message. -/
def benchmarkBody (testPrompt : List Char) (m : MModel) (w : World) :
    Except (List Char) BenchmarkResult :=
  match m.providerConfig with
  | none => Except.error (("Missing API key for provider ".toList) ++ m.providerName)
  | some cfg =>
    if cfg.apiKey = [] then
      Except.error (("Missing API key for provider ".toList) ++ m.providerName)
    else if cfg.baseUrl = [] then
      Except.error (("Missing base URL for provider ".toList) ++ m.providerName)
    else
      match w.outcome with
      | FetchOutcome.networkError msg => Except.error msg
      | FetchOutcome.response r =>
        if !r.ok then
          Except.error (("API request failed: ".toList) ++ (Nat.repr r.status).toList
            ++ (" ".toList) ++ r.statusText)
        else Except.ok (successResult testPrompt m w r)

/-- `benchmarkSingleModelRest`: the whole body runs inside `try`/`catch`,
so every raised error is converted into a failure result. -/
def benchmarkSingleModelRest (testPrompt : List Char) (m : MModel) (w : World) :
    BenchmarkResult :=
  match benchmarkBody testPrompt m w with
  | Except.ok r => r
  | Except.error msg => failedResult m msg

/-- `runRestApiBenchmark`'s scatter/gather (cli.js lines 1993–1998):
`models.map(model => benchmarkSingleModelRest(model))` joined by
`Promise.all`, which keeps order and length.  Each request's network
interaction is independent, modelled by indexing worlds by position. -/
def runRestApiBenchmark (testPrompt : List Char) (models : List MModel)
    (worlds : Nat → World) : List BenchmarkResult :=
  models.mapIdx (fun i m => benchmarkSingleModelRest testPrompt m (worlds i))

/-! ## Result aggregation (`displayColorfulResults`, lines 850, 931–991) -/

/-- Insert a result into a list sorted descending by key, after the elements
with strictly greater key and before all others: the unique position a
stable sort produces. -/
def insertDescBy (k : BenchmarkResult → ℚ) (r : BenchmarkResult) :
    List BenchmarkResult → List BenchmarkResult
  | [] => [r]
  | x :: xs => if k r ≥ k x then r :: x :: xs else x :: insertDescBy k r xs

/-- Stable sort descending by key: the ordering contract of
`[...].sort((a, b) => k(b) - k(a))` (`Array.prototype.sort` is stable). -/
def sortDescBy (k : BenchmarkResult → ℚ) : List BenchmarkResult → List BenchmarkResult
  | [] => []
  | x :: xs => insertDescBy k x (sortDescBy k xs)

/-- Insert a result into a list sorted ascending by key, after the elements
with strictly smaller key. -/
def insertAscBy (k : BenchmarkResult → Int) (r : BenchmarkResult) :
    List BenchmarkResult → List BenchmarkResult
  | [] => [r]
  | x :: xs => if k r ≤ k x then r :: x :: xs else x :: insertAscBy k r xs

/-- Stable sort ascending by key: the ordering contract of
`[...].sort((a, b) => k(a) - k(b))`. -/
def sortAscBy (k : BenchmarkResult → Int) : List BenchmarkResult → List BenchmarkResult
  | [] => []
  | x :: xs => insertAscBy k x (sortAscBy k xs)

/-- `const successfulResults = results.filter(r => r.success)`. -/
def successfulResults (results : List BenchmarkResult) : List BenchmarkResult :=
  results.filter (·.success)

/-- `const tpsSortedResults = [...successfulResults].sort((a, b) =>
b.tokensPerSecond - a.tokensPerSecond)` (cli.js line 965). -/
def tpsSortedResults (results : List BenchmarkResult) : List BenchmarkResult :=
  sortDescBy (·.tokensPerSecond) (successfulResults results)

/-- `const timeSortedResults = [...successfulResults].sort((a, b) =>
a.totalTime - b.totalTime)` (cli.js line 933). -/
def timeSortedResults (results : List BenchmarkResult) : List BenchmarkResult :=
  sortAscBy (·.totalTime) (successfulResults results)

/-- Attach 1-based ranks (`const rank = index + 1`). -/
def withRanks (n : Nat) : List BenchmarkResult → List (Nat × BenchmarkResult)
  | [] => []
  | x :: xs => (n, x) :: withRanks (n + 1) xs

/-- The throughput ranking displayed by `displayColorfulResults`:
1-based ranks over the successful results sorted descending by
`tokensPerSecond`. -/
def rankedTps (results : List BenchmarkResult) : List (Nat × BenchmarkResult) :=
  withRanks 1 (tpsSortedResults results)

/-- The total-time ranking: 1-based ranks over the successful results
sorted ascending by `totalTime`. -/
def rankedTime (results : List BenchmarkResult) : List (Nat × BenchmarkResult) :=
  withRanks 1 (timeSortedResults results)

/-! ## Headless JSON output (`runHeadlessBenchmark`, lines 2276–2296) -/

/-- The `jsonOutput` object of `runHeadlessBenchmark`, as an ordered list of
(field name, value) pairs, exactly the fields the source serializes. -/
def headlessJsonOutput (providerName providerId modelName modelId : List Char)
    (useAiSdk : Bool) (r : BenchmarkResult) : List (List Char × Json) :=
  [("provider".toList, Json.str providerName),
   ("providerId".toList, Json.str providerId),
   ("model".toList, Json.str modelName),
   ("modelId".toList, Json.str modelId),
   ("method".toList, Json.str (if useAiSdk then "ai-sdk".toList else "rest-api".toList)),
   ("success".toList, Json.bool r.success),
   ("totalTime".toList, Json.num r.totalTime),
   ("totalTimeSeconds".toList, Json.num ((r.totalTime : ℚ) / 1000)),
   ("timeToFirstToken".toList, Json.num r.timeToFirstToken),
   ("timeToFirstTokenSeconds".toList, Json.num ((r.timeToFirstToken : ℚ) / 1000)),
   ("tokensPerSecond".toList, Json.num r.tokensPerSecond),
   ("outputTokens".toList, Json.num r.tokenCount),
   ("promptTokens".toList, Json.num r.promptTokens),
   ("totalTokens".toList, Json.num r.totalTokens),
   ("is_estimated".toList, Json.bool (r.usedEstimateForOutput || r.usedEstimateForInput)),
   ("error".toList, match r.error with | some e => Json.str e | none => Json.null)]

/-- The field names the specification promises for the headless record
(spec §6), for comparison with the fields the code actually emits. -/
def specHeadlessFieldNames : List (List Char) :=
  ["provider".toList, "model".toList, "success".toList, "totalTimeMs".toList,
   "ttftMs".toList, "tokensPerSecond".toList, "outputTokens".toList,
   "promptTokens".toList, "totalTokens".toList, "isEstimated".toList, "error".toList]

/-! ## Specification-side views of the token accounting -/

/-- One decode step: the accumulators after one complete line
(the Boolean sentinel flag dropped). -/
def decStep (pt : List Char) (s : DecState) (l : List Char) : DecState :=
  (lineStep pt s l).1

/-- The usage value an OpenAI-compatible line reports for `key`
(`prompt_tokens` or `completion_tokens`): present only on a parsed
`data: ` line that is not the sentinel. -/
def oaiReportedUsage (key : List Char) (line : List Char) : Option ℚ :=
  if ("data: ".toList).isPrefixOf (jsTrim line) ∧ jsTrim line ≠ [] ∧
      (jsTrim line).drop 6 ≠ "[DONE]".toList then
    (parseJson ((jsTrim line).drop 6)).bind (fun j => oaiUsageField j key)
  else none

/-- Whether a line reports a non-zero usage value for `key`. -/
def oaiObservedNZ (key : List Char) (line : List Char) : Bool :=
  match oaiReportedUsage key line with
  | some n => decide (n ≠ 0)
  | none => false

/-- Modelled from the spec's accounting rule: the last non-zero
provider-reported usage value for `key` over a sequence of lines
(later values win over earlier ones), `none` if no non-zero value
was ever reported. -/
def lastNZUsage (key : List Char) : List (List Char) → Option ℚ
  | [] => none
  | l :: ls =>
    match lastNZUsage key ls with
    | some n => some n
    | none =>
      match oaiReportedUsage key l with
      | some n => if n ≠ 0 then some n else none
      | none => none

/-- Merge a pending segment into the head of a segment list (used to state
how `splitNL` distributes over append). -/
def mergeHead (x : List Char) : List (List Char) → List (List Char)
  | [] => [x]
  | y :: ys => (x ++ y) :: ys

/-! ## Concrete example data -/

/-- A sample benchmark prompt, 12 characters, so the estimate
`Math.round(12 / 4)` is `3`. -/
def tpEx : List Char := "What is 2+2?".toList

/-- A configured OpenAI-compatible model. -/
def mOai : MModel :=
  { name := "gpt-4o".toList, providerName := "OpenAI".toList,
    providerType := "openai-compatible".toList,
    providerConfig := some { apiKey := "sk-test".toList, baseUrl := "https://api.openai.com/v1".toList } }

/-- A configured Anthropic model. -/
def mAnth : MModel :=
  { name := "claude".toList, providerName := "Anthropic".toList,
    providerType := "anthropic".toList,
    providerConfig := some { apiKey := "sk-ant".toList, baseUrl := "https://api.anthropic.com".toList } }

/-- An OpenAI-compatible delta line carrying the text `"Hi"`. -/
def lineHi : List Char :=
  "data: \x7b\"choices\":[\x7b\"delta\":\x7b\"content\":\"Hi\"\x7d\x7d]\x7d".toList

/-- The sentinel chunk `data: [DONE]\n`. -/
def chDone : List Char := "data: [DONE]\n".toList

/-- The delta line as a full chunk (newline-terminated). -/
def chHi : List Char := lineHi ++ ['\n']

/-- An OpenAI-compatible usage line reporting 7 prompt and 9 completion
tokens. -/
def lineUsage79 : List Char :=
  "data: \x7b\"usage\":\x7b\"prompt_tokens\":7,\"completion_tokens\":9\x7d\x7d".toList

/-- A line whose payload is not valid JSON (`JSON.parse` throws on it). -/
def lineBad : List Char := "data: \x7bnot json".toList

/-- An Anthropic `message_delta` line reporting `input_tokens = 14`. -/
def anthLineDelta14 : List Char :=
  "data: \x7b\"type\":\"message_delta\",\"usage\":\x7b\"input_tokens\":14\x7d\x7d".toList

/-- An Anthropic `message_start` line whose `message.usage` object carries
no `input_tokens` member (only `output_tokens`). -/
def anthLineStart : List Char :=
  "data: \x7b\"type\":\"message_start\",\"message\":\x7b\"usage\":\x7b\"output_tokens\":50\x7d\x7d\x7d".toList

/-- A successful response delivering one sentinel chunk at time 150. -/
def respOkEx : HttpResponse :=
  { ok := true, status := 200, statusText := "OK".toList, bodyText := [],
    chunks := [(150, chDone)] }

/-- A world around `respOkEx`, dispatch at 100, completion at 300. -/
def wOkEx : World :=
  { startTime := 100, outcome := FetchOutcome.response respOkEx, endTime := 300 }

/-- A successful response whose single chunk carries the Anthropic
`message_delta` line (reporting `input_tokens = 14`) followed by the
`message_start` line without `input_tokens`. -/
def respAnthEx : HttpResponse :=
  { ok := true, status := 200, statusText := "OK".toList, bodyText := [],
    chunks := [(150, anthLineDelta14 ++ ['\n'] ++ anthLineStart ++ ['\n'])] }

/-- A world around `respAnthEx`. -/
def wAnthEx : World :=
  { startTime := 100, outcome := FetchOutcome.response respAnthEx, endTime := 300 }

/-- A successful response whose single chunk carries the usage line and the
delta line (no sentinel). -/
def respOaiEx : HttpResponse :=
  { ok := true, status := 200, statusText := "OK".toList, bodyText := [],
    chunks := [(150, lineUsage79 ++ ['\n'] ++ chHi)] }

/-- A world around `respOaiEx`. -/
def wOaiEx : World :=
  { startTime := 100, outcome := FetchOutcome.response respOaiEx, endTime := 300 }

/-- An HTTP 401 response with a non-empty body. -/
def resp401 : HttpResponse :=
  { ok := false, status := 401, statusText := "Unauthorized".toList,
    bodyText := "BODYTEXT".toList, chunks := [] }

/-- A world whose response is `resp401`. -/
def w401 : World :=
  { startTime := 100, outcome := FetchOutcome.response resp401, endTime := 300 }

/-- A successful response whose single chunk carries a well-formed delta
line, then a malformed line, then the usage line (no sentinel). -/
def respBadEx : HttpResponse :=
  { ok := true, status := 200, statusText := "OK".toList, bodyText := [],
    chunks := [(150, chHi ++ lineBad ++ ['\n'] ++ lineUsage79 ++ ['\n'])] }

/-- A world around `respBadEx`. -/
def wBadLineEx : World :=
  { startTime := 100, outcome := FetchOutcome.response respBadEx, endTime := 300 }

/-- A sample result record (integer-valued throughput for easy evaluation). -/
def rEx : BenchmarkResult :=
  { model := "gpt-4o".toList, provider := "OpenAI".toList, totalTime := 200,
    timeToFirstToken := 50, tokenCount := 1, tokensPerSecond := 20,
    promptTokens := 3, totalTokens := 4, usedEstimateForOutput := true,
    usedEstimateForInput := true, success := true, error := none }

/-- Successful result with `tokensPerSecond = 178.6` (spec §8 example). -/
def rTpsA : BenchmarkResult :=
  { model := "model-a".toList, provider := "p1".toList, totalTime := 1000,
    timeToFirstToken := 100, tokenCount := 100, tokensPerSecond := 1786 / 10,
    promptTokens := 10, totalTokens := 110, usedEstimateForOutput := false,
    usedEstimateForInput := false, success := true, error := none }

/-- Successful result with `tokensPerSecond = 81.5`. -/
def rTpsB : BenchmarkResult :=
  { model := "model-b".toList, provider := "p2".toList, totalTime := 2000,
    timeToFirstToken := 200, tokenCount := 100, tokensPerSecond := 815 / 10,
    promptTokens := 10, totalTokens := 110, usedEstimateForOutput := false,
    usedEstimateForInput := false, success := true, error := none }

/-- Successful result with `tokensPerSecond = 72.9`. -/
def rTpsC : BenchmarkResult :=
  { model := "model-c".toList, provider := "p3".toList, totalTime := 3000,
    timeToFirstToken := 300, tokenCount := 100, tokensPerSecond := 729 / 10,
    promptTokens := 10, totalTokens := 110, usedEstimateForOutput := false,
    usedEstimateForInput := false, success := true, error := none }

/-! ## Lemmas about line splitting -/

theorem splitNL_ne_nil (s : List Char) : splitNL s ≠ [] := by
  cases s with
  | nil => simp [splitNL]
  | cons c cs =>
    unfold splitNL
    split <;> simp

theorem splitNL_nl (cs : List Char) : splitNL ('\n' :: cs) = [] :: splitNL cs := by
  simp [splitNL]

theorem splitNL_other {c : Char} (hc : c ≠ '\n') (cs : List Char) :
    splitNL (c :: cs) = (c :: (splitNL cs).headD []) :: (splitNL cs).tail := by
  simp [splitNL, hc]

theorem lastSeg_cons_ne {l : List (List Char)} (h : l ≠ []) (a : List Char) :
    lastSeg (a :: l) = lastSeg l := by
  cases l with
  | nil => exact absurd rfl h
  | cons b l => rfl

theorem mergeHead_ne_nil (x : List Char) (ys : List (List Char)) : mergeHead x ys ≠ [] := by
  cases ys <;> simp [mergeHead]

theorem dropLast_cons_ne {α : Type} {l : List α} (h : l ≠ []) (a : α) :
    (a :: l).dropLast = a :: l.dropLast := by
  cases l with
  | nil => exact absurd rfl h
  | cons b l => rfl

theorem splitNL_of_not_mem {s : List Char} (h : '\n' ∉ s) : splitNL s = [s] := by
  induction s with
  | nil => rfl
  | cons c cs ih =>
    simp only [List.mem_cons, not_or] at h
    have hc : c ≠ '\n' := fun hcc => h.1 hcc.symm
    rw [splitNL_other hc, ih h.2]
    simp

theorem not_mem_of_mem_splitNL {s l : List Char} (hl : l ∈ splitNL s) : '\n' ∉ l := by
  induction s generalizing l with
  | nil =>
    simp [splitNL] at hl
    simp [hl]
  | cons c cs ih =>
    by_cases hc : c = '\n'
    · subst hc
      rw [splitNL_nl] at hl
      rcases List.mem_cons.mp hl with h | h
      · simp [h]
      · exact ih h
    · rw [splitNL_other hc] at hl
      rcases hsp : splitNL cs with _ | ⟨l', ls⟩
      · exact absurd hsp (splitNL_ne_nil cs)
      · rw [hsp] at hl
        rcases List.mem_cons.mp hl with h | h
        · subst h
          have hl' : '\n' ∉ l' := ih (hsp ▸ List.mem_cons_self l' ls)
          simp only [List.headD_cons, List.mem_cons, not_or]
          exact ⟨fun hn => hc hn.symm, hl'⟩
        · exact ih (hsp ▸ List.mem_cons_of_mem l' (by simpa using h))

theorem splitNL_append (a b : List Char) :
    splitNL (a ++ b) =
      (splitNL a).dropLast ++ mergeHead (lastSeg (splitNL a)) (splitNL b) := by
  induction a with
  | nil =>
    rcases h : splitNL b with _ | ⟨m, ms⟩
    · exact absurd h (splitNL_ne_nil b)
    · simp [splitNL, lastSeg, mergeHead, h]
  | cons c cs ih =>
    by_cases hc : c = '\n'
    · subst hc
      rw [List.cons_append, splitNL_nl, splitNL_nl, ih,
        dropLast_cons_ne (splitNL_ne_nil cs) ([] : List Char),
        lastSeg_cons_ne (splitNL_ne_nil cs)]
      simp
    · rcases hsp : splitNL cs with _ | ⟨l, ls⟩
      · exact absurd hsp (splitNL_ne_nil cs)
      · rw [List.cons_append, splitNL_other hc, splitNL_other hc, ih, hsp]
        rcases ls with _ | ⟨l2, ls2⟩
        · rcases hb : splitNL b with _ | ⟨m, ms⟩
          · exact absurd hb (splitNL_ne_nil b)
          · simp [lastSeg, mergeHead]
        · have hne2 : (l2 :: ls2 : List (List Char)) ≠ [] := by simp
          rw [dropLast_cons_ne hne2 l, lastSeg_cons_ne hne2]
          rcases hmh : mergeHead (lastSeg (l2 :: ls2)) (splitNL b) with _ | ⟨m, ms⟩
          · exact absurd hmh (mergeHead_ne_nil _ _)
          · simp [dropLast_cons_ne hne2 (c :: l), lastSeg_cons_ne hne2, hmh]

/-! ## Lemmas about the line loop -/

theorem lastSeg_mem {l : List (List Char)} (h : l ≠ []) : lastSeg l ∈ l := by
  induction l with
  | nil => exact absurd rfl h
  | cons a l ih =>
    cases l with
    | nil => simp [lastSeg]
    | cons b l =>
      rw [lastSeg_cons_ne (by simp) a]
      exact List.mem_cons_of_mem a (ih (by simp))

theorem lastSeg_append {xs ys : List (List Char)} (h : ys ≠ []) :
    lastSeg (xs ++ ys) = lastSeg ys := by
  induction xs with
  | nil => rfl
  | cons x xs ih =>
    have hne : xs ++ ys ≠ [] := by
      intro hx
      rcases List.append_eq_nil.mp hx with ⟨_, h2⟩
      exact h h2
    rw [List.cons_append, lastSeg_cons_ne hne, ih]

theorem dropLast_append_ne {α : Type} {xs ys : List α} (h : ys ≠ []) :
    (xs ++ ys).dropLast = xs ++ ys.dropLast := by
  induction xs with
  | nil => rfl
  | cons x xs ih =>
    have hne : xs ++ ys ≠ [] := by
      intro hx
      rcases List.append_eq_nil.mp hx with ⟨_, h2⟩
      exact h h2
    rw [List.cons_append, dropLast_cons_ne hne, ih]
    rfl

theorem oaiLineStep_snd (st : DecState) (l : List Char) :
    (oaiLineStep st l).2 = isDoneTrim l := by
  unfold oaiLineStep isDoneTrim
  split
  · rename_i ht
    simp [ht]
  · split
    · split
      · simp_all
      · split <;> simp_all
    · simp_all

theorem anthLineStep_snd (st : DecState) (l : List Char) :
    (anthLineStep st l).2 = isDoneTrim l := by
  unfold anthLineStep isDoneTrim
  split
  · rename_i ht
    simp [ht]
  · split
    · split
      · simp_all
      · split <;> simp_all
    · split
      · simp_all
      · split <;> simp_all

theorem googLineStep_snd (st : DecState) (l : List Char) :
    (googLineStep st l).2 = false := by
  unfold googLineStep
  split
  · rfl
  · split <;> rfl

theorem lineStep_snd (pt : List Char) (st : DecState) (l : List Char) :
    (lineStep pt st l).2 = isDoneLine pt l := by
  unfold lineStep isDoneLine
  by_cases h1 : pt = "anthropic".toList
  · have h2 : pt ≠ "google".toList := by rw [h1]; decide
    rw [if_pos h1, if_neg h2]
    exact anthLineStep_snd st l
  · by_cases h2 : pt = "google".toList
    · rw [if_neg h1, if_pos h2, if_pos h2]
      exact googLineStep_snd st l
    · rw [if_neg h1, if_neg h2, if_neg h2]
      exact oaiLineStep_snd st l

theorem oaiLineStep_of_done {l : List Char} (h : isDoneTrim l = true) (st : DecState) :
    oaiLineStep st l = (st, true) := by
  unfold isDoneTrim at h
  rw [Bool.and_eq_true, decide_eq_true_eq] at h
  have ht : jsTrim l ≠ [] := by
    intro hnil
    rw [hnil] at h
    simp [List.isPrefixOf] at h
  unfold oaiLineStep
  rw [if_neg ht, if_pos h.1, if_pos h.2]

theorem anthLineStep_of_done {l : List Char} (h : isDoneTrim l = true) (st : DecState) :
    anthLineStep st l = (st, true) := by
  unfold isDoneTrim at h
  rw [Bool.and_eq_true, decide_eq_true_eq] at h
  have ht : jsTrim l ≠ [] := by
    intro hnil
    rw [hnil] at h
    simp [List.isPrefixOf] at h
  unfold anthLineStep
  rw [if_neg ht, if_pos h.1, if_pos h.2]

theorem lineStep_of_done {pt l : List Char} (h : isDoneLine pt l = true) (st : DecState) :
    lineStep pt st l = (st, true) := by
  unfold isDoneLine at h
  unfold lineStep
  by_cases h2 : pt = "google".toList
  · rw [if_pos h2] at h
    exact absurd h (by simp)
  · rw [if_neg h2] at h
    by_cases h1 : pt = "anthropic".toList
    · rw [if_pos h1]
      exact anthLineStep_of_done h st
    · rw [if_neg h1, if_neg h2]
      exact oaiLineStep_of_done h st

theorem runLines_eq_foldl {pt : List Char} {ls : List (List Char)}
    (h : ∀ l ∈ ls, isDoneLine pt l = false) (st : DecState) :
    runLines pt st ls = ls.foldl (decStep pt) st := by
  induction ls generalizing st with
  | nil => rfl
  | cons l ls ih =>
    have hl : isDoneLine pt l = false := h l (List.mem_cons_self _ _)
    have hsnd : (lineStep pt st l).2 = false := by rw [lineStep_snd, hl]
    unfold runLines
    rcases hls : lineStep pt st l with ⟨st', d⟩
    rw [hls] at hsnd
    simp only at hsnd
    subst hsnd
    simp only [List.foldl_cons]
    have hfst : decStep pt st l = st' := by unfold decStep; rw [hls]
    rw [hfst]
    exact ih (fun l' hl' => h l' (List.mem_cons_of_mem _ hl')) st'

theorem runLines_stops_at_done {pt : List Char} {pre : List (List Char)} {dl : List Char}
    (hpre : ∀ l ∈ pre, isDoneLine pt l = false) (hd : isDoneLine pt dl = true)
    (post : List (List Char)) (st : DecState) :
    runLines pt st (pre ++ dl :: post) = pre.foldl (decStep pt) st := by
  induction pre generalizing st with
  | nil =>
    simp only [List.nil_append, List.foldl_nil]
    unfold runLines
    rw [lineStep_of_done hd st]
  | cons p pre ih =>
    have hp : isDoneLine pt p = false := hpre p (List.mem_cons_self _ _)
    have hsnd : (lineStep pt st p).2 = false := by rw [lineStep_snd, hp]
    rw [List.cons_append]
    unfold runLines
    rcases hls : lineStep pt st p with ⟨st', d⟩
    rw [hls] at hsnd
    simp only at hsnd
    subst hsnd
    simp only [List.foldl_cons]
    have hfst : decStep pt st p = st' := by unfold decStep; rw [hls]
    rw [hfst]
    exact ih (fun l' hl' => hpre l' (List.mem_cons_of_mem _ hl')) st'

theorem splitNL_cons_decomp {buf chunk rest : List Char} :
    splitNL (buf ++ (chunk ++ rest)) =
      completeLines (buf ++ chunk) ++
        splitNL (lastSeg (splitNL (buf ++ chunk)) ++ rest) := by
  have h1 : buf ++ (chunk ++ rest) = (buf ++ chunk) ++ rest := by simp
  have hbuf' : '\n' ∉ lastSeg (splitNL (buf ++ chunk)) :=
    not_mem_of_mem_splitNL (lastSeg_mem (splitNL_ne_nil _))
  have h2 : splitNL (lastSeg (splitNL (buf ++ chunk)) ++ rest) =
      mergeHead (lastSeg (splitNL (buf ++ chunk))) (splitNL rest) := by
    rw [splitNL_append, splitNL_of_not_mem hbuf']
    simp [lastSeg, mergeHead]
  rw [h1, splitNL_append, h2, completeLines]

theorem runChunks_canonical {pt : List Char} (chunks : List (List Char))
    (buf : List Char) (st : DecState) (hbuf : '\n' ∉ buf)
    (hnd : ∀ l ∈ completeLines (buf ++ chunks.flatten), isDoneLine pt l = false) :
    runChunks pt { buffer := buf, dec := st } chunks =
      { buffer := lastSeg (splitNL (buf ++ chunks.flatten)),
        dec := (completeLines (buf ++ chunks.flatten)).foldl (decStep pt) st } := by
  induction chunks generalizing buf st with
  | nil =>
    have h0 : buf ++ ([] : List (List Char)).flatten = buf := by simp
    have h1 : runChunks pt { buffer := buf, dec := st } [] =
        { buffer := buf, dec := st } := rfl
    rw [h1, h0, splitNL_of_not_mem hbuf]
    simp [completeLines, lastSeg, splitNL_of_not_mem hbuf]
  | cons c rest ih =>
    have hjoin : (c :: rest).flatten = c ++ rest.flatten := by simp
    have hdecomp := @splitNL_cons_decomp buf c rest.flatten
    have hclsplit : completeLines (buf ++ (c :: rest).flatten) =
        completeLines (buf ++ c) ++
          completeLines (lastSeg (splitNL (buf ++ c)) ++ rest.flatten) := by
      rw [hjoin, completeLines, hdecomp, dropLast_append_ne (splitNL_ne_nil _)]
      rfl
    have hlastsplit : lastSeg (splitNL (buf ++ (c :: rest).flatten)) =
        lastSeg (splitNL (lastSeg (splitNL (buf ++ c)) ++ rest.flatten)) := by
      rw [hjoin, hdecomp, lastSeg_append (splitNL_ne_nil _)]
    have hbuf2 : '\n' ∉ lastSeg (splitNL (buf ++ c)) :=
      not_mem_of_mem_splitNL (lastSeg_mem (splitNL_ne_nil _))
    have hnd1 : ∀ l ∈ completeLines (buf ++ c), isDoneLine pt l = false := by
      intro l hl
      exact hnd l (hclsplit ▸ List.mem_append_left _ hl)
    have hnd2 : ∀ l ∈ completeLines (lastSeg (splitNL (buf ++ c)) ++ rest.flatten),
        isDoneLine pt l = false := by
      intro l hl
      exact hnd l (hclsplit ▸ List.mem_append_right _ hl)
    have hstep : runChunks pt { buffer := buf, dec := st } (c :: rest) =
        runChunks pt
          { buffer := lastSeg (splitNL (buf ++ c)),
            dec := runLines pt st (completeLines (buf ++ c)) } rest := rfl
    rw [hstep, runLines_eq_foldl hnd1 st, ih _ _ hbuf2 hnd2, hclsplit, hlastsplit,
      List.foldl_append]

/-- Chunking invariance of the decode loop, away from the sentinel: the final
accumulators depend only on the concatenation of the chunks. -/
theorem runChunks_chunking_invariant {pt : List Char}
    (chunks₁ chunks₂ : List (List Char)) (st : DecState)
    (hjoin : chunks₁.flatten = chunks₂.flatten)
    (hnd : ∀ l ∈ completeLines chunks₁.flatten, isDoneLine pt l = false) :
    runChunks pt { buffer := [], dec := st } chunks₁ =
      runChunks pt { buffer := [], dec := st } chunks₂ := by
  rw [runChunks_canonical chunks₁ [] st (by simp) (by simpa using hnd),
    runChunks_canonical chunks₂ [] st (by simp) (by rw [← hjoin]; simpa using hnd)]
  rw [← hjoin]

/-! ## Lemmas about the orchestrator body -/

theorem benchmarkBody_ok_shape {tp : List Char} {m : MModel} {w : World}
    {res : BenchmarkResult} (h : benchmarkBody tp m w = Except.ok res) :
    res.success = true ∧ res.error = none ∧
      res.tokensPerSecond =
        if 0 < res.totalTime then res.totalTokens / (res.totalTime : ℚ) * 1000
        else 0 := by
  unfold benchmarkBody at h
  rcases hc : m.providerConfig with _ | cfg <;> rw [hc] at h
  · exact absurd h (by simp)
  · dsimp only at h
    split_ifs at h with h1 h2
    rcases ho : w.outcome with r | msg <;> rw [ho] at h <;> dsimp only at h
    · split_ifs at h with h3
      rw [Except.ok.injEq] at h
      subst h
      simp [successResult]
    · exact absurd h (by simp)

theorem benchmark_ok {tp : List Char} {m : MModel} {w : World} {cfg : ProviderConfig}
    {r : HttpResponse} (hcfg : m.providerConfig = some cfg) (hkey : cfg.apiKey ≠ [])
    (hurl : cfg.baseUrl ≠ []) (hresp : w.outcome = FetchOutcome.response r)
    (hok : r.ok = true) :
    benchmarkSingleModelRest tp m w = successResult tp m w r := by
  unfold benchmarkSingleModelRest benchmarkBody
  rw [hcfg, hresp]
  dsimp only
  rw [if_neg hkey, if_neg hurl, hok]
  simp

theorem benchmark_notOk {tp : List Char} {m : MModel} {w : World} {cfg : ProviderConfig}
    {r : HttpResponse} (hcfg : m.providerConfig = some cfg) (hkey : cfg.apiKey ≠ [])
    (hurl : cfg.baseUrl ≠ []) (hresp : w.outcome = FetchOutcome.response r)
    (hok : r.ok = false) :
    benchmarkSingleModelRest tp m w =
      failedResult m (("API request failed: ".toList) ++ (Nat.repr r.status).toList
        ++ (" ".toList) ++ r.statusText) := by
  unfold benchmarkSingleModelRest benchmarkBody
  rw [hcfg, hresp]
  dsimp only
  rw [if_neg hkey, if_neg hurl, hok]
  simp

/-! ## Lemmas about the OpenAI-compatible token accounting -/

theorem updContent_inputTokens (j : Json) (st : DecState) :
    (updContent j st).inputTokens = st.inputTokens := by
  unfold updContent
  split <;> rfl

theorem updContent_outputTokens (j : Json) (st : DecState) :
    (updContent j st).outputTokens = st.outputTokens := by
  unfold updContent
  split <;> rfl

theorem updInput_inputTokens (j : Json) (st : DecState) :
    (updInput j st).inputTokens =
      match oaiUsageField j ("prompt_tokens".toList) with
      | some n => if n ≠ 0 then n else st.inputTokens
      | none => st.inputTokens := by
  unfold updInput
  split
  · split <;> rfl
  · rfl

theorem updInput_outputTokens (j : Json) (st : DecState) :
    (updInput j st).outputTokens = st.outputTokens := by
  unfold updInput
  split
  · split <;> rfl
  · rfl

theorem updOutput_inputTokens (j : Json) (st : DecState) :
    (updOutput j st).inputTokens = st.inputTokens := by
  unfold updOutput
  split
  · split <;> rfl
  · rfl

theorem updOutput_outputTokens (j : Json) (st : DecState) :
    (updOutput j st).outputTokens =
      match oaiUsageField j ("completion_tokens".toList) with
      | some n => if n ≠ 0 then n else st.outputTokens
      | none => st.outputTokens := by
  unfold updOutput
  split
  · split <;> rfl
  · rfl

theorem oaiLineStep_fst_inputTokens (st : DecState) (l : List Char) :
    (oaiLineStep st l).1.inputTokens =
      match oaiReportedUsage ("prompt_tokens".toList) l with
      | some n => if n ≠ 0 then n else st.inputTokens
      | none => st.inputTokens := by
  unfold oaiLineStep oaiReportedUsage
  split
  · rename_i ht
    simp [ht]
  · rename_i ht
    split
    · rename_i hp
      split
      · rename_i hd
        simp [hd]
      · rename_i hd
        have hcond : ("data: ".toList).isPrefixOf (jsTrim l) = true ∧ jsTrim l ≠ [] ∧
            (jsTrim l).drop 6 ≠ "[DONE]".toList := ⟨hp, ht, hd⟩
        rw [if_pos hcond]
        split
        · rename_i hparse
          simp [hparse]
        · rename_i j hparse
          rw [hparse]
          simp only [Option.some_bind]
          rw [updOutput_inputTokens, updInput_inputTokens, updContent_inputTokens]
    · rename_i hp
      rw [if_neg (fun hcond => hp hcond.1)]

theorem oaiLineStep_fst_outputTokens (st : DecState) (l : List Char) :
    (oaiLineStep st l).1.outputTokens =
      match oaiReportedUsage ("completion_tokens".toList) l with
      | some n => if n ≠ 0 then n else st.outputTokens
      | none => st.outputTokens := by
  unfold oaiLineStep oaiReportedUsage
  split
  · rename_i ht
    simp [ht]
  · rename_i ht
    split
    · rename_i hp
      split
      · rename_i hd
        simp [hd]
      · rename_i hd
        have hcond : ("data: ".toList).isPrefixOf (jsTrim l) = true ∧ jsTrim l ≠ [] ∧
            (jsTrim l).drop 6 ≠ "[DONE]".toList := ⟨hp, ht, hd⟩
        rw [if_pos hcond]
        split
        · rename_i hparse
          simp [hparse]
        · rename_i j hparse
          rw [hparse]
          simp only [Option.some_bind]
          rw [updOutput_outputTokens, updInput_outputTokens, updContent_outputTokens]
    · rename_i hp
      rw [if_neg (fun hcond => hp hcond.1)]

theorem decStep_oai {pt : List Char} (h1 : pt ≠ "anthropic".toList)
    (h2 : pt ≠ "google".toList) (st : DecState) (l : List Char) :
    decStep pt st l = (oaiLineStep st l).1 := by
  unfold decStep lineStep
  rw [if_neg h1, if_neg h2]

theorem foldl_oai_inputTokens (ls : List (List Char)) : ∀ st : DecState,
    (ls.foldl (fun s l => (oaiLineStep s l).1) st).inputTokens =
      match lastNZUsage ("prompt_tokens".toList) ls with
      | some n => n
      | none => st.inputTokens := by
  induction ls with
  | nil => intro st; rfl
  | cons l ls ih =>
    intro st
    rw [List.foldl_cons, ih]
    rcases h1 : lastNZUsage ("prompt_tokens".toList) ls with _ | n
    · have h2 : lastNZUsage ("prompt_tokens".toList) (l :: ls) =
          match oaiReportedUsage ("prompt_tokens".toList) l with
          | some n => if n ≠ 0 then some n else none
          | none => none := by
        unfold lastNZUsage
        rw [h1]
      rw [h2, oaiLineStep_fst_inputTokens]
      rcases h3 : oaiReportedUsage ("prompt_tokens".toList) l with _ | m
      · rfl
      · by_cases hm : m = 0
        · simp [hm]
        · simp [hm]
    · have h2 : lastNZUsage ("prompt_tokens".toList) (l :: ls) = some n := by
        unfold lastNZUsage
        rw [h1]
      rw [h2]

theorem foldl_oai_outputTokens (ls : List (List Char)) : ∀ st : DecState,
    (ls.foldl (fun s l => (oaiLineStep s l).1) st).outputTokens =
      match lastNZUsage ("completion_tokens".toList) ls with
      | some n => n
      | none => st.outputTokens := by
  induction ls with
  | nil => intro st; rfl
  | cons l ls ih =>
    intro st
    rw [List.foldl_cons, ih]
    rcases h1 : lastNZUsage ("completion_tokens".toList) ls with _ | n
    · have h2 : lastNZUsage ("completion_tokens".toList) (l :: ls) =
          match oaiReportedUsage ("completion_tokens".toList) l with
          | some n => if n ≠ 0 then some n else none
          | none => none := by
        unfold lastNZUsage
        rw [h1]
      rw [h2, oaiLineStep_fst_outputTokens]
      rcases h3 : oaiReportedUsage ("completion_tokens".toList) l with _ | m
      · rfl
      · by_cases hm : m = 0
        · simp [hm]
        · simp [hm]
    · have h2 : lastNZUsage ("completion_tokens".toList) (l :: ls) = some n := by
        unfold lastNZUsage
        rw [h1]
      rw [h2]

theorem lastNZUsage_eq_none_iff (key : List Char) (ls : List (List Char)) :
    (lastNZUsage key ls).isNone = !(ls.any (oaiObservedNZ key)) := by
  induction ls with
  | nil => rfl
  | cons l ls ih =>
    rw [List.any_cons]
    rcases h1 : lastNZUsage key ls with _ | n
    · have hls : ls.any (oaiObservedNZ key) = false := by
        rw [h1] at ih
        simpa using ih.symm
      have h2 : lastNZUsage key (l :: ls) =
          match oaiReportedUsage key l with
          | some n => if n ≠ 0 then some n else none
          | none => none := by
        unfold lastNZUsage
        rw [h1]
      rw [h2, hls]
      unfold oaiObservedNZ
      rcases h3 : oaiReportedUsage key l with _ | m
      · simp
      · by_cases hm : m = 0
        · simp [hm]
        · simp [hm]
    · have hls : ls.any (oaiObservedNZ key) = true := by
        rw [h1] at ih
        simpa using ih.symm
      have h2 : lastNZUsage key (l :: ls) = some n := by
        unfold lastNZUsage
        rw [h1]
      rw [h2, hls]
      simp

/-! ## Lemmas about the ranking sorts -/

theorem insertDescBy_perm (k : BenchmarkResult → ℚ) (r : BenchmarkResult)
    (l : List BenchmarkResult) : (insertDescBy k r l).Perm (r :: l) := by
  induction l with
  | nil => exact List.Perm.refl _
  | cons x xs ih =>
    unfold insertDescBy
    split
    · exact List.Perm.refl _
    · exact ((ih.cons x).trans (List.Perm.swap r x xs))

theorem sortDescBy_perm (k : BenchmarkResult → ℚ) (l : List BenchmarkResult) :
    (sortDescBy k l).Perm l := by
  induction l with
  | nil => exact List.Perm.refl _
  | cons x xs ih =>
    exact (insertDescBy_perm k x (sortDescBy k xs)).trans (ih.cons x)

theorem pairwise_insertDescBy (k : BenchmarkResult → ℚ) (r : BenchmarkResult)
    {l : List BenchmarkResult} (h : l.Pairwise (fun a b => k b ≤ k a)) :
    (insertDescBy k r l).Pairwise (fun a b => k b ≤ k a) := by
  induction l with
  | nil => simp [insertDescBy]
  | cons x xs ih =>
    rw [List.pairwise_cons] at h
    unfold insertDescBy
    split
    · rename_i hge
      rw [List.pairwise_cons]
      refine ⟨?_, List.pairwise_cons.mpr h⟩
      intro b hb
      rcases List.mem_cons.mp hb with hbx | hbxs
      · subst hbx
        exact hge
      · exact le_trans (h.1 b hbxs) hge
    · rename_i hlt
      rw [List.pairwise_cons]
      refine ⟨?_, ih h.2⟩
      intro b hb
      rcases List.mem_cons.mp ((insertDescBy_perm k r xs).mem_iff.mp hb) with hbr | hbxs
      · subst hbr
        exact le_of_not_le hlt
      · exact h.1 b hbxs

theorem sortDescBy_pairwise (k : BenchmarkResult → ℚ) (l : List BenchmarkResult) :
    (sortDescBy k l).Pairwise (fun a b => k b ≤ k a) := by
  induction l with
  | nil => simp [sortDescBy]
  | cons x xs ih => exact pairwise_insertDescBy k x ih

theorem filter_insertDescBy_ne (k : BenchmarkResult → ℚ) (q : ℚ) (r : BenchmarkResult)
    (l : List BenchmarkResult) (hr : k r ≠ q) :
    (insertDescBy k r l).filter (fun a => decide (k a = q)) =
      l.filter (fun a => decide (k a = q)) := by
  induction l with
  | nil => simp [insertDescBy, hr]
  | cons x xs ih =>
    unfold insertDescBy
    split
    · simp [List.filter, hr]
    · simp only [List.filter]
      rw [ih]

theorem filter_insertDescBy_eq (k : BenchmarkResult → ℚ) (r : BenchmarkResult)
    (l : List BenchmarkResult) :
    (insertDescBy k r l).filter (fun a => decide (k a = k r)) =
      r :: l.filter (fun a => decide (k a = k r)) := by
  induction l with
  | nil => simp [insertDescBy]
  | cons x xs ih =>
    unfold insertDescBy
    split
    · simp [List.filter]
    · rename_i hlt
      have hx : k x ≠ k r := by
        intro hxr
        exact hlt (ge_of_eq hxr.symm)
      simp only [List.filter, hx, decide_eq_true_eq, if_neg]
      rw [ih]
      simp [hx]

theorem filter_sortDescBy (k : BenchmarkResult → ℚ) (q : ℚ) (l : List BenchmarkResult) :
    (sortDescBy k l).filter (fun a => decide (k a = q)) =
      l.filter (fun a => decide (k a = q)) := by
  induction l with
  | nil => rfl
  | cons x xs ih =>
    show (insertDescBy k x (sortDescBy k xs)).filter _ = _
    by_cases hx : k x = q
    · subst hx
      rw [filter_insertDescBy_eq, ih]
      simp [List.filter]
    · rw [filter_insertDescBy_ne k q x _ hx, ih]
      simp [List.filter, hx]

theorem insertAscBy_perm (k : BenchmarkResult → Int) (r : BenchmarkResult)
    (l : List BenchmarkResult) : (insertAscBy k r l).Perm (r :: l) := by
  induction l with
  | nil => exact List.Perm.refl _
  | cons x xs ih =>
    unfold insertAscBy
    split
    · exact List.Perm.refl _
    · exact ((ih.cons x).trans (List.Perm.swap r x xs))

theorem sortAscBy_perm (k : BenchmarkResult → Int) (l : List BenchmarkResult) :
    (sortAscBy k l).Perm l := by
  induction l with
  | nil => exact List.Perm.refl _
  | cons x xs ih =>
    exact (insertAscBy_perm k x (sortAscBy k xs)).trans (ih.cons x)

theorem pairwise_insertAscBy (k : BenchmarkResult → Int) (r : BenchmarkResult)
    {l : List BenchmarkResult} (h : l.Pairwise (fun a b => k a ≤ k b)) :
    (insertAscBy k r l).Pairwise (fun a b => k a ≤ k b) := by
  induction l with
  | nil => simp [insertAscBy]
  | cons x xs ih =>
    rw [List.pairwise_cons] at h
    unfold insertAscBy
    split
    · rename_i hle
      rw [List.pairwise_cons]
      refine ⟨?_, List.pairwise_cons.mpr h⟩
      intro b hb
      rcases List.mem_cons.mp hb with hbx | hbxs
      · subst hbx
        exact hle
      · exact le_trans hle (h.1 b hbxs)
    · rename_i hgt
      rw [List.pairwise_cons]
      refine ⟨?_, ih h.2⟩
      intro b hb
      rcases List.mem_cons.mp ((insertAscBy_perm k r xs).mem_iff.mp hb) with hbr | hbxs
      · subst hbr
        exact le_of_not_le hgt
      · exact h.1 b hbxs

theorem sortAscBy_pairwise (k : BenchmarkResult → Int) (l : List BenchmarkResult) :
    (sortAscBy k l).Pairwise (fun a b => k a ≤ k b) := by
  induction l with
  | nil => simp [sortAscBy]
  | cons x xs ih => exact pairwise_insertAscBy k x ih

theorem filter_insertAscBy_ne (k : BenchmarkResult → Int) (q : Int) (r : BenchmarkResult)
    (l : List BenchmarkResult) (hr : k r ≠ q) :
    (insertAscBy k r l).filter (fun a => decide (k a = q)) =
      l.filter (fun a => decide (k a = q)) := by
  induction l with
  | nil => simp [insertAscBy, hr]
  | cons x xs ih =>
    unfold insertAscBy
    split
    · simp [List.filter, hr]
    · simp only [List.filter]
      rw [ih]

theorem filter_insertAscBy_eq (k : BenchmarkResult → Int) (r : BenchmarkResult)
    (l : List BenchmarkResult) :
    (insertAscBy k r l).filter (fun a => decide (k a = k r)) =
      r :: l.filter (fun a => decide (k a = k r)) := by
  induction l with
  | nil => simp [insertAscBy]
  | cons x xs ih =>
    unfold insertAscBy
    split
    · simp [List.filter]
    · rename_i hgt
      have hx : k x ≠ k r := by
        intro hxr
        exact hgt (le_of_eq hxr.symm)
      simp only [List.filter, hx, decide_eq_true_eq, if_neg]
      rw [ih]
      simp [hx]

theorem filter_sortAscBy (k : BenchmarkResult → Int) (q : Int) (l : List BenchmarkResult) :
    (sortAscBy k l).filter (fun a => decide (k a = q)) =
      l.filter (fun a => decide (k a = q)) := by
  induction l with
  | nil => rfl
  | cons x xs ih =>
    show (insertAscBy k x (sortAscBy k xs)).filter _ = _
    by_cases hx : k x = q
    · subst hx
      rw [filter_insertAscBy_eq, ih]
      simp [List.filter]
    · rw [filter_insertAscBy_ne k q x _ hx, ih]
      simp [List.filter, hx]

theorem withRanks_map_fst (l : List BenchmarkResult) : ∀ n : Nat,
    (withRanks n l).map Prod.fst = List.range' n l.length := by
  induction l with
  | nil => intro n; rfl
  | cons x xs ih =>
    intro n
    show (n, x).1 :: (withRanks (n + 1) xs).map Prod.fst = List.range' n (xs.length + 1)
    rw [ih (n + 1), List.range'_succ]

theorem withRanks_map_snd (l : List BenchmarkResult) : ∀ n : Nat,
    (withRanks n l).map Prod.snd = l := by
  induction l with
  | nil => intro n; rfl
  | cons x xs ih =>
    intro n
    show x :: (withRanks (n + 1) xs).map Prod.snd = x :: xs
    rw [ih (n + 1)]

theorem lastNZUsage_some_ne_zero {key : List Char} {ls : List (List Char)} {n : ℚ}
    (h : lastNZUsage key ls = some n) : n ≠ 0 := by
  induction ls with
  | nil => exact absurd h (by simp [lastNZUsage])
  | cons l ls ih =>
    unfold lastNZUsage at h
    rcases h1 : lastNZUsage key ls with _ | m <;> rw [h1] at h <;> dsimp only at h
    · rcases h2 : oaiReportedUsage key l with _ | m <;> rw [h2] at h <;> dsimp only at h
      · exact absurd h (by simp)
      · by_cases hm : m = 0
        · rw [if_neg (not_not_intro hm)] at h
          exact absurd h (by simp)
        · rw [if_pos hm] at h
          rw [Option.some.injEq] at h
          subst h
          exact hm
    · rw [Option.some.injEq] at h
      subst h
      exact ih h1

theorem runLines_skip {pt : List Char} {l : List Char}
    (hstep : ∀ s : DecState, lineStep pt s l = (s, false))
    (pre post : List (List Char)) (st : DecState) :
    runLines pt st (pre ++ l :: post) = runLines pt st (pre ++ post) := by
  induction pre generalizing st with
  | nil =>
    show runLines pt st (l :: post) = runLines pt st post
    rw [runLines, hstep st]
  | cons p pre ih =>
    rw [List.cons_append, List.cons_append]
    unfold runLines
    rcases hls : lineStep pt st p with ⟨st', d⟩
    cases d
    · exact ih st'
    · rfl

theorem foldl_decStep_oai {pt : List Char} (h1 : pt ≠ "anthropic".toList)
    (h2 : pt ≠ "google".toList) (ls : List (List Char)) (st : DecState) :
    ls.foldl (decStep pt) st = ls.foldl (fun s l => (oaiLineStep s l).1) st := by
  induction ls generalizing st with
  | nil => rfl
  | cons l ls ih =>
    rw [List.foldl_cons, List.foldl_cons, decStep_oai h1 h2]
    exact ih _

/-! ## Claim theorems -/

/-- C1: dispatching N requests yields exactly N `BenchmarkResult` records:
the orchestrator maps each model to one result, and every error raised while
benchmarking one model is caught inside `benchmarkSingleModelRest` and
converted into a failure result object, so no error escapes to abort a
sibling request or shrink the result set. -/
theorem c1_orchestrator_result_count (tp : List Char) (models : List MModel)
    (worlds : Nat → World) :
    (runRestApiBenchmark tp models worlds).length = models.length ∧
    ∀ (m : MModel) (w : World),
      ((benchmarkSingleModelRest tp m w).success = true ∧
        (benchmarkSingleModelRest tp m w).error = none) ∨
      ∃ msg, benchmarkSingleModelRest tp m w = failedResult m msg := by
  constructor
  · simp [runRestApiBenchmark]
  · intro m w
    unfold benchmarkSingleModelRest
    cases hb : benchmarkBody tp m w with
    | ok res => exact Or.inl ⟨(benchmarkBody_ok_shape hb).1, (benchmarkBody_ok_shape hb).2.1⟩
    | error msg => exact Or.inr ⟨msg, rfl⟩

/-- C3: for every result, successful or failed, `tokensPerSecond` equals
`totalTokens / totalTime * 1000` when `totalTime > 0` and `0` when
`totalTime` is not positive (in particular when it is `0`, as in every
failure result). -/
theorem c3_tokens_per_second (tp : List Char) (m : MModel) (w : World) :
    (benchmarkSingleModelRest tp m w).tokensPerSecond =
      if 0 < (benchmarkSingleModelRest tp m w).totalTime then
        (benchmarkSingleModelRest tp m w).totalTokens /
          ((benchmarkSingleModelRest tp m w).totalTime : ℚ) * 1000
      else 0 := by
  unfold benchmarkSingleModelRest
  cases hb : benchmarkBody tp m w with
  | ok res => exact (benchmarkBody_ok_shape hb).2.2
  | error msg => simp [failedResult]

/-- C9 counterexample: the headless JSON record's field names are not the
ones the claim lists (`totalTimeMs`, `ttftMs`, `isEstimated` do not occur;
`providerId`, `modelId`, `method`, `totalTime`, `totalTimeSeconds`,
`timeToFirstToken`, `timeToFirstTokenSeconds`, `is_estimated` and more do). -/
theorem c9_counterexample :
    (headlessJsonOutput ("OpenAI".toList) ("openai".toList) ("gpt-4o".toList)
      ("gpt-4o".toList) false rEx).map Prod.fst ≠ specHeadlessFieldNames := by
  decide

/-- C9 amended: the single-request headless output is a plain structured
record serialized to JSON whose field names are exactly `provider,
providerId, model, modelId, method, success, totalTime, totalTimeSeconds,
timeToFirstToken, timeToFirstTokenSeconds, tokensPerSecond, outputTokens,
promptTokens, totalTokens, is_estimated, error`. -/
theorem c9_amended (pn pid mn mid : List Char) (uai : Bool) (r : BenchmarkResult) :
    (headlessJsonOutput pn pid mn mid uai r).map Prod.fst =
      ["provider".toList, "providerId".toList, "model".toList, "modelId".toList,
       "method".toList, "success".toList, "totalTime".toList, "totalTimeSeconds".toList,
       "timeToFirstToken".toList, "timeToFirstTokenSeconds".toList,
       "tokensPerSecond".toList, "outputTokens".toList, "promptTokens".toList,
       "totalTokens".toList, "is_estimated".toList, "error".toList] := by
  rfl

/-- C6 counterexample: a `data: [DONE]` sentinel decoded in one chunk does
not end the stream; a delta line arriving in a later chunk still
contributes its text to the accumulators. -/
theorem c6_counterexample :
    isDoneTrim ("data: [DONE]".toList) = true ∧
    (runChunks ("openai-compatible".toList) { buffer := [], dec := initDec }
      [chDone]).dec.streamedText = [] ∧
    (runChunks ("openai-compatible".toList) { buffer := [], dec := initDec }
      [chDone, chHi]).dec.streamedText = "Hi".toList := by
  decide

/-- C6 amended: in the OpenAI-compatible decoder a `data: [DONE]` sentinel
line ends the processing of the remaining complete lines of the current
chunk only (contributing nothing itself): the line loop stops at the
sentinel and the lines after it in the same chunk are never decoded.  The
`break` is chunk-local, so lines decoded from later chunks are processed
again. -/
theorem c6_amended {pt : List Char} (st : DecState) (pre post : List (List Char))
    (dl : List Char) (hpre : ∀ l ∈ pre, isDoneLine pt l = false)
    (hd : isDoneLine pt dl = true) :
    runLines pt st (pre ++ dl :: post) = pre.foldl (decStep pt) st :=
  runLines_stops_at_done hpre hd post st

/-- C6 amended, witness at a concrete chunk: a delta line, the sentinel,
then a usage line; the loop stops at the sentinel. -/
theorem c6_amended_witness :
    isDoneLine ("openai-compatible".toList) ("data: [DONE]".toList) = true ∧
    runLines ("openai-compatible".toList) initDec
        ([lineHi] ++ ("data: [DONE]".toList) :: [lineUsage79]) =
      [lineHi].foldl (decStep ("openai-compatible".toList)) initDec :=
  ⟨by decide,
    c6_amended initDec [lineHi] [lineUsage79] ("data: [DONE]".toList)
      (by decide) (by decide)⟩

/-- C10 counterexample: chunking invariance fails at the sentinel, because
the `break` is chunk-local.  The same stream content, split as one chunk or
as two, yields different accumulators. -/
theorem c10_counterexample :
    ([chDone ++ chHi] : List (List Char)).flatten = [chDone, chHi].flatten ∧
    (runChunks ("openai-compatible".toList) { buffer := [], dec := initDec }
        [chDone ++ chHi]).dec ≠
      (runChunks ("openai-compatible".toList) { buffer := [], dec := initDec }
        [chDone, chHi]).dec := by
  decide

/-- C10 amended: for every stream content none of whose complete lines is a
`data: [DONE]` sentinel, and every way of partitioning the content into
inbound chunks, the decode loop accumulates exactly the same
`streamedText`, `inputTokens` and `outputTokens`: the result depends only
on the concatenation of the chunks (the trailing segment after the last
newline is retained in the buffer and never decoded; timing fields
excepted). -/
theorem c10_amended (pt : List Char) (chunks₁ chunks₂ : List (List Char))
    (st : DecState) (hjoin : chunks₁.flatten = chunks₂.flatten)
    (hnd : ∀ l ∈ completeLines chunks₁.flatten, isDoneLine pt l = false) :
    (runChunks pt { buffer := [], dec := st } chunks₁).dec =
      (runChunks pt { buffer := [], dec := st } chunks₂).dec := by
  rw [runChunks_chunking_invariant chunks₁ chunks₂ st hjoin hnd]

/-- C10 amended, witness: the usage chunk split at character 10 decodes to
the same accumulators as the unsplit chunk. -/
theorem c10_amended_witness :
    ([lineUsage79 ++ ['\n']] : List (List Char)).flatten =
      [(lineUsage79 ++ ['\n']).take 10, (lineUsage79 ++ ['\n']).drop 10].flatten ∧
    (runChunks ("openai-compatible".toList) { buffer := [], dec := initDec }
        [lineUsage79 ++ ['\n']]).dec =
      (runChunks ("openai-compatible".toList) { buffer := [], dec := initDec }
        [(lineUsage79 ++ ['\n']).take 10, (lineUsage79 ++ ['\n']).drop 10]).dec :=
  ⟨by decide,
    c10_amended ("openai-compatible".toList) _ _ initDec (by decide) (by decide)⟩

/-- C2: for every successful result produced under a monotone clock
(dispatch ≤ every chunk arrival ≤ completion),
`0 ≤ timeToFirstToken ≤ totalTime`, and when no inbound chunk was ever
observed (`firstTokenTime` never set) `timeToFirstToken = totalTime`. -/
theorem c2_ttft_bounds (tp : List Char) (m : MModel) (w : World) (cfg : ProviderConfig)
    (r : HttpResponse) (hcfg : m.providerConfig = some cfg) (hkey : cfg.apiKey ≠ [])
    (hurl : cfg.baseUrl ≠ []) (hresp : w.outcome = FetchOutcome.response r)
    (hok : r.ok = true) (hse : w.startTime ≤ w.endTime)
    (htimes : ∀ p ∈ r.chunks, w.startTime ≤ p.1 ∧ p.1 ≤ w.endTime) :
    (benchmarkSingleModelRest tp m w).success = true ∧
    0 ≤ (benchmarkSingleModelRest tp m w).timeToFirstToken ∧
    (benchmarkSingleModelRest tp m w).timeToFirstToken ≤
      (benchmarkSingleModelRest tp m w).totalTime ∧
    (r.chunks = [] →
      (benchmarkSingleModelRest tp m w).timeToFirstToken =
        (benchmarkSingleModelRest tp m w).totalTime) := by
  rw [benchmark_ok hcfg hkey hurl hresp hok]
  rcases hch : r.chunks with _ | ⟨⟨t, ch⟩, rest⟩
  · refine ⟨rfl, ?_, ?_, fun _ => ?_⟩ <;>
      simp only [successResult, hch, List.head?_nil, Option.map_none'] <;> omega
  · have hbound := htimes (t, ch) (hch ▸ List.mem_cons_self _ _)
    refine ⟨rfl, ?_, ?_, fun hnil => ?_⟩
    · simp only [successResult, hch, List.head?_cons, Option.map_some']
      by_cases ht0 : t = 0
      · simp only [ht0, ne_eq, not_true_eq_false, if_false]
        omega
      · simp only [ne_eq, ht0, not_false_eq_true, if_true]
        omega
    · simp only [successResult, hch, List.head?_cons, Option.map_some']
      by_cases ht0 : t = 0
      · simp only [ht0, ne_eq, not_true_eq_false, if_false]
        omega
      · simp only [ne_eq, ht0, not_false_eq_true, if_true]
        omega
    · exact absurd hnil (by simp)

/-- C2 witness: a concrete successful run with one chunk arriving at 150
between dispatch 100 and completion 300. -/
theorem c2_ttft_bounds_witness :
    (respOkEx.ok = true ∧ wOkEx.startTime ≤ wOkEx.endTime ∧
      ∀ p ∈ respOkEx.chunks, wOkEx.startTime ≤ p.1 ∧ p.1 ≤ wOkEx.endTime) ∧
    ((benchmarkSingleModelRest tpEx mOai wOkEx).success = true ∧
      0 ≤ (benchmarkSingleModelRest tpEx mOai wOkEx).timeToFirstToken ∧
      (benchmarkSingleModelRest tpEx mOai wOkEx).timeToFirstToken ≤
        (benchmarkSingleModelRest tpEx mOai wOkEx).totalTime ∧
      (respOkEx.chunks = [] →
        (benchmarkSingleModelRest tpEx mOai wOkEx).timeToFirstToken =
          (benchmarkSingleModelRest tpEx mOai wOkEx).totalTime)) :=
  ⟨⟨by decide, by decide, by decide⟩,
    c2_ttft_bounds tpEx mOai wOkEx
      { apiKey := "sk-test".toList, baseUrl := "https://api.openai.com/v1".toList }
      respOkEx rfl (by decide) (by decide) rfl rfl (by decide) (by decide)⟩

/-- C5 counterexample: an HTTP 401 run yields `success = false` and an
`error` containing `"401"`, but the response body (`"BODYTEXT"`), though
read, is not captured in `error` — contradicting the claim that the error
field captures both the status code and the response body. -/
theorem c5_counterexample :
    (benchmarkSingleModelRest tpEx mOai w401).success = false ∧
    ("401".toList) <:+: ((benchmarkSingleModelRest tpEx mOai w401).error.getD []) ∧
    ¬ (("BODYTEXT".toList) <:+:
      ((benchmarkSingleModelRest tpEx mOai w401).error.getD [])) := by
  decide

/-- C5 amended: when the HTTP response has a non-2xx status,
`benchmarkSingleModelRest` immediately yields a failure result (whatever
the stream would have carried) whose `error` is exactly
`API request failed: <status> <statusText>` — capturing the status code and
status text, but not the response body — and sibling concurrent requests
still produce their own results. -/
theorem c5_amended (tp : List Char) (m : MModel) (w : World) (cfg : ProviderConfig)
    (r : HttpResponse) (hcfg : m.providerConfig = some cfg) (hkey : cfg.apiKey ≠ [])
    (hurl : cfg.baseUrl ≠ []) (hresp : w.outcome = FetchOutcome.response r)
    (hok : r.ok = false) :
    benchmarkSingleModelRest tp m w =
      failedResult m (("API request failed: ".toList) ++ (Nat.repr r.status).toList
        ++ (" ".toList) ++ r.statusText) ∧
    (benchmarkSingleModelRest tp m w).success = false ∧
    (Nat.repr r.status).toList <:+:
      ((benchmarkSingleModelRest tp m w).error.getD []) := by
  have hb := @benchmark_notOk tp m w cfg r hcfg hkey hurl hresp hok
  refine ⟨hb, ?_, ?_⟩
  · rw [hb]
    rfl
  · rw [hb]
    simp only [failedResult, Option.getD_some]
    refine ⟨"API request failed: ".toList, (" ".toList) ++ r.statusText, ?_⟩
    simp [List.append_assoc]

/-- C5 amended, witness at the concrete 401 world. -/
theorem c5_amended_witness :
    resp401.ok = false ∧
    ((benchmarkSingleModelRest tpEx mOai w401).success = false ∧
      (Nat.repr resp401.status).toList <:+:
        ((benchmarkSingleModelRest tpEx mOai w401).error.getD [])) :=
  ⟨by decide,
    (c5_amended tpEx mOai w401
      { apiKey := "sk-test".toList, baseUrl := "https://api.openai.com/v1".toList }
      resp401 rfl (by decide) (by decide) rfl rfl).2⟩

/-- C7: a decode exception on any stream line of any provider family (a
line whose payload `JSON.parse` rejects, through the shared catch) leaves
the accumulated text and usage unchanged, decoding continues with the next
line (the line is simply dropped from the line sequence), and the request
still finalizes as a successful result built from the data accumulated
before and after the bad line. -/
theorem c7_decode_error_skipped (pt : List Char) (st : DecState) (l p : List Char)
    (pre post : List (List Char)) (tp : List Char) (m : MModel) (w : World)
    (cfg : ProviderConfig) (r : HttpResponse)
    (hpay : parsedPayload pt l = some p)
    (hbad : (parseJson p).isNone = true)
    (hcfg : m.providerConfig = some cfg) (hkey : cfg.apiKey ≠ [])
    (hurl : cfg.baseUrl ≠ []) (hresp : w.outcome = FetchOutcome.response r)
    (hok : r.ok = true) :
    lineStep pt st l = (st, false) ∧
    runLines pt st (pre ++ l :: post) = runLines pt st (pre ++ post) ∧
    (benchmarkSingleModelRest tp m w).success = true := by
  have hparse : parseJson p = none := Option.isNone_iff_eq_none.mp hbad
  have hstep : ∀ s : DecState, lineStep pt s l = (s, false) := by
    intro s
    unfold parsedPayload at hpay
    unfold lineStep
    by_cases ht : jsTrim l = []
    · rw [if_pos ht] at hpay
      exact absurd hpay (by simp)
    · rw [if_neg ht] at hpay
      by_cases h1 : pt = "anthropic".toList
      · rw [if_pos h1] at hpay
        rw [if_pos h1]
        unfold anthLineStep
        rw [if_neg ht]
        by_cases hp : ("data: ".toList).isPrefixOf (jsTrim l) = true
        · rw [if_pos hp] at hpay
          rw [if_pos hp]
          by_cases hd : (jsTrim l).drop 6 = "[DONE]".toList
          · rw [if_pos hd] at hpay
            exact absurd hpay (by simp)
          · rw [if_neg hd] at hpay
            rw [if_neg hd]
            rw [Option.some.injEq] at hpay
            subst hpay
            rw [hparse]
        · rw [if_neg hp] at hpay
          rw [if_neg hp]
          by_cases he : ("event: ".toList).isPrefixOf (jsTrim l) = true
          · rw [if_pos he] at hpay
            exact absurd hpay (by simp)
          · rw [if_neg he] at hpay
            rw [if_neg he]
            rw [Option.some.injEq] at hpay
            subst hpay
            rw [hparse]
      · rw [if_neg h1] at hpay
        rw [if_neg h1]
        by_cases h2 : pt = "google".toList
        · rw [if_pos h2] at hpay
          rw [if_pos h2]
          unfold googLineStep
          rw [if_neg ht]
          rw [Option.some.injEq] at hpay
          subst hpay
          rw [hparse]
        · rw [if_neg h2] at hpay
          rw [if_neg h2]
          unfold oaiLineStep
          rw [if_neg ht]
          by_cases hp : ("data: ".toList).isPrefixOf (jsTrim l) = true
          · rw [if_pos hp] at hpay
            rw [if_pos hp]
            by_cases hd : (jsTrim l).drop 6 = "[DONE]".toList
            · rw [if_pos hd] at hpay
              exact absurd hpay (by simp)
            · rw [if_neg hd] at hpay
              rw [if_neg hd]
              rw [Option.some.injEq] at hpay
              subst hpay
              rw [hparse]
          · rw [if_neg hp] at hpay
            exact absurd hpay (by simp)
  refine ⟨hstep st, runLines_skip hstep pre post st, ?_⟩
  rw [benchmark_ok hcfg hkey hurl hresp hok]
  simp [successResult]

/-- C7 witness: the malformed line `data: \x7bnot json` is skipped on the
OpenAI-compatible path (between a delta line and a usage line, with the
concrete run still succeeding) and on the Anthropic path. -/
theorem c7_witness :
    (parsedPayload ("openai-compatible".toList) lineBad =
        some ((jsTrim lineBad).drop 6) ∧
      (parseJson ((jsTrim lineBad).drop 6)).isNone = true) ∧
    (lineStep ("openai-compatible".toList) initDec lineBad = (initDec, false) ∧
      runLines ("openai-compatible".toList) initDec
          ([lineHi] ++ lineBad :: [lineUsage79]) =
        runLines ("openai-compatible".toList) initDec ([lineHi] ++ [lineUsage79]) ∧
      (benchmarkSingleModelRest tpEx mOai wBadLineEx).success = true) ∧
    lineStep ("anthropic".toList) initDec lineBad = (initDec, false) :=
  ⟨⟨by decide, by decide⟩,
    c7_decode_error_skipped ("openai-compatible".toList) initDec lineBad
      ((jsTrim lineBad).drop 6) [lineHi] [lineUsage79] tpEx mOai wBadLineEx
      { apiKey := "sk-test".toList, baseUrl := "https://api.openai.com/v1".toList }
      respBadEx (by decide) (by decide) rfl (by decide) (by decide) rfl rfl,
    (c7_decode_error_skipped ("anthropic".toList) initDec lineBad
      ((jsTrim lineBad).drop 6) [] [] tpEx mOai wBadLineEx
      { apiKey := "sk-test".toList, baseUrl := "https://api.openai.com/v1".toList }
      respBadEx (by decide) (by decide) rfl (by decide) (by decide) rfl rfl).1⟩

/-- C8: the aggregator ranks the successful results of a batch in
descending order of `tokensPerSecond` (a permutation of the successful set,
sorted descending, ties kept in input order — stability stated as filter
preservation at every key) with 1-based ranks, and independently in
ascending order of `totalTime` with the same tie rule; in particular three
successful results with `tokensPerSecond` 178.6, 81.5, 72.9 are ranked
1st, 2nd, 3rd in that exact order. -/
theorem c8_ranking (results : List BenchmarkResult) :
    (tpsSortedResults results).Perm (successfulResults results) ∧
    (tpsSortedResults results).Pairwise
      (fun a b => b.tokensPerSecond ≤ a.tokensPerSecond) ∧
    (∀ q : ℚ, (tpsSortedResults results).filter
        (fun a => decide (a.tokensPerSecond = q)) =
      (successfulResults results).filter (fun a => decide (a.tokensPerSecond = q))) ∧
    (rankedTps results).map Prod.fst = List.range' 1 (tpsSortedResults results).length ∧
    (rankedTps results).map Prod.snd = tpsSortedResults results ∧
    (timeSortedResults results).Perm (successfulResults results) ∧
    (timeSortedResults results).Pairwise (fun a b => a.totalTime ≤ b.totalTime) ∧
    (∀ q : Int, (timeSortedResults results).filter
        (fun a => decide (a.totalTime = q)) =
      (successfulResults results).filter (fun a => decide (a.totalTime = q))) ∧
    (rankedTime results).map Prod.fst =
      List.range' 1 (timeSortedResults results).length ∧
    rankedTps [rTpsA, rTpsB, rTpsC] = [(1, rTpsA), (2, rTpsB), (3, rTpsC)] := by
  refine ⟨sortDescBy_perm _ _, sortDescBy_pairwise _ _,
    fun q => filter_sortDescBy _ q _, withRanks_map_fst _ 1, withRanks_map_snd _ 1,
    sortAscBy_perm _ _, sortAscBy_pairwise _ _, fun q => filter_sortAscBy _ q _,
    withRanks_map_fst _ 1, ?_⟩
  have hBC : (rTpsB.tokensPerSecond ≥ rTpsC.tokensPerSecond) := by
    norm_num [rTpsB, rTpsC]
  have hAB : (rTpsA.tokensPerSecond ≥ rTpsB.tokensPerSecond) := by
    norm_num [rTpsA, rTpsB]
  unfold rankedTps tpsSortedResults successfulResults
  rw [show ([rTpsA, rTpsB, rTpsC].filter (·.success)) = [rTpsA, rTpsB, rTpsC] from rfl]
  have e2 : insertDescBy (fun x => x.tokensPerSecond) rTpsB [rTpsC] = [rTpsB, rTpsC] := by
    unfold insertDescBy
    rw [if_pos hBC]
  have e3 : insertDescBy (fun x => x.tokensPerSecond) rTpsA [rTpsB, rTpsC] =
      [rTpsA, rTpsB, rTpsC] := by
    unfold insertDescBy
    rw [if_pos hAB]
  have hsort : sortDescBy (fun x => x.tokensPerSecond) [rTpsA, rTpsB, rTpsC] =
      [rTpsA, rTpsB, rTpsC] := by
    show insertDescBy _ rTpsA (insertDescBy _ rTpsB
      (insertDescBy _ rTpsC (sortDescBy _ []))) = _
    rw [show sortDescBy (fun x : BenchmarkResult => x.tokensPerSecond) [] = [] from rfl,
      show insertDescBy (fun x : BenchmarkResult => x.tokensPerSecond) rTpsC [] = [rTpsC]
        from rfl, e2, e3]
  rw [hsort]
  rfl

/-- C4 counterexample (Anthropic path): the `message_delta` line reports a
non-zero provider input-token count (14), but a later `message_start` whose
`message.usage` lacks `input_tokens` overwrites the accumulator with 0, so
the run finishes with the character estimate and `estimatedInput = true`
although a non-zero provider-reported count was observed — contradicting
"the final count is the provider-reported value when it is present and
non-zero" and the estimated-flag biconditional. -/
theorem c4_counterexample :
    (anthLineStep initDec anthLineDelta14).1.inputTokens = 14 ∧
    (benchmarkSingleModelRest tpEx mAnth wAnthEx).usedEstimateForInput = true ∧
    (benchmarkSingleModelRest tpEx mAnth wAnthEx).promptTokens = jsRound4 tpEx.length ∧
    (benchmarkSingleModelRest tpEx mAnth wAnthEx).promptTokens ≠ 14 := by
  decide

/-- C4 amended (OpenAI-compatible path, no sentinel among the complete
lines): for each of input and output tokens independently, the final count
is the last non-zero provider-reported value when one was observed, and
otherwise `round(characterLength / 4)` of the prompt text (input) or of the
full accumulated completion text (output) with the corresponding estimated
flag set; the estimated flag for a side is true iff no non-zero
provider-reported count was observed for that side; `totalTokens` is the
sum of the two finally chosen values.  (On the Anthropic path a later
`message_start` can overwrite the input accumulator, so the rule there
applies to the accumulator value at stream end.) -/
theorem c4_amended (tp : List Char) (m : MModel) (w : World) (cfg : ProviderConfig)
    (r : HttpResponse)
    (hpt1 : m.providerType ≠ "anthropic".toList)
    (hpt2 : m.providerType ≠ "google".toList)
    (hcfg : m.providerConfig = some cfg) (hkey : cfg.apiKey ≠ [])
    (hurl : cfg.baseUrl ≠ []) (hresp : w.outcome = FetchOutcome.response r)
    (hok : r.ok = true)
    (hnd : ∀ l ∈ completeLines (r.chunks.map Prod.snd).flatten, isDoneTrim l = false) :
    (benchmarkSingleModelRest tp m w).usedEstimateForInput =
      (lastNZUsage ("prompt_tokens".toList)
        (completeLines (r.chunks.map Prod.snd).flatten)).isNone ∧
    (benchmarkSingleModelRest tp m w).promptTokens =
      (match lastNZUsage ("prompt_tokens".toList)
          (completeLines (r.chunks.map Prod.snd).flatten) with
        | some n => n
        | none => jsRound4 tp.length) ∧
    (benchmarkSingleModelRest tp m w).usedEstimateForOutput =
      (lastNZUsage ("completion_tokens".toList)
        (completeLines (r.chunks.map Prod.snd).flatten)).isNone ∧
    (benchmarkSingleModelRest tp m w).tokenCount =
      (match lastNZUsage ("completion_tokens".toList)
          (completeLines (r.chunks.map Prod.snd).flatten) with
        | some n => n
        | none => jsRound4 ((completeLines (r.chunks.map Prod.snd).flatten).foldl
            (fun s l => (oaiLineStep s l).1) initDec).streamedText.length) ∧
    (benchmarkSingleModelRest tp m w).totalTokens =
      (benchmarkSingleModelRest tp m w).promptTokens +
        (benchmarkSingleModelRest tp m w).tokenCount ∧
    (lastNZUsage ("prompt_tokens".toList)
        (completeLines (r.chunks.map Prod.snd).flatten)).isNone =
      !((completeLines (r.chunks.map Prod.snd).flatten).any
        (oaiObservedNZ ("prompt_tokens".toList))) ∧
    (lastNZUsage ("completion_tokens".toList)
        (completeLines (r.chunks.map Prod.snd).flatten)).isNone =
      !((completeLines (r.chunks.map Prod.snd).flatten).any
        (oaiObservedNZ ("completion_tokens".toList))) := by
  rw [benchmark_ok hcfg hkey hurl hresp hok]
  have hndL : ∀ l ∈ completeLines ([] ++ (r.chunks.map Prod.snd).flatten),
      isDoneLine m.providerType l = false := by
    intro l hl
    rw [List.nil_append] at hl
    unfold isDoneLine
    rw [if_neg hpt2]
    exact hnd l hl
  have hst : (runChunks m.providerType { buffer := [], dec := initDec }
      (r.chunks.map Prod.snd)).dec =
      (completeLines (r.chunks.map Prod.snd).flatten).foldl
        (fun s l => (oaiLineStep s l).1) initDec := by
    rw [runChunks_canonical (r.chunks.map Prod.snd) [] initDec (by simp) hndL]
    show (completeLines ([] ++ (r.chunks.map Prod.snd).flatten)).foldl
        (decStep m.providerType) initDec = _
    rw [List.nil_append, foldl_decStep_oai hpt1 hpt2]
  have hin := foldl_oai_inputTokens
    (completeLines (r.chunks.map Prod.snd).flatten) initDec
  have hout := foldl_oai_outputTokens
    (completeLines (r.chunks.map Prod.snd).flatten) initDec
  simp only [successResult, hst, hin, hout]
  refine ⟨?_, ?_, ?_, ?_, ?_,
    lastNZUsage_eq_none_iff _ _, lastNZUsage_eq_none_iff _ _⟩
  · rcases hnz : lastNZUsage ("prompt_tokens".toList)
        (completeLines (r.chunks.map Prod.snd).flatten) with _ | n
    · simp [initDec]
    · simp [lastNZUsage_some_ne_zero hnz]
  · rcases hnz : lastNZUsage ("prompt_tokens".toList)
        (completeLines (r.chunks.map Prod.snd).flatten) with _ | n
    · simp [initDec]
    · simp [lastNZUsage_some_ne_zero hnz]
  · rcases hnz : lastNZUsage ("completion_tokens".toList)
        (completeLines (r.chunks.map Prod.snd).flatten) with _ | n
    · simp [initDec]
    · simp [lastNZUsage_some_ne_zero hnz]
  · rcases hnz : lastNZUsage ("completion_tokens".toList)
        (completeLines (r.chunks.map Prod.snd).flatten) with _ | n
    · simp [initDec]
    · simp [lastNZUsage_some_ne_zero hnz]
  · trivial

/-- C4 amended, witness: a concrete OpenAI-compatible run whose stream
carries one usage line (7 prompt / 9 completion tokens) and one delta
line. -/
theorem c4_amended_witness :
    (∀ l ∈ completeLines (respOaiEx.chunks.map Prod.snd).flatten,
      isDoneTrim l = false) ∧
    ((benchmarkSingleModelRest tpEx mOai wOaiEx).usedEstimateForInput =
      (lastNZUsage ("prompt_tokens".toList)
        (completeLines (respOaiEx.chunks.map Prod.snd).flatten)).isNone ∧
    (benchmarkSingleModelRest tpEx mOai wOaiEx).promptTokens =
      (match lastNZUsage ("prompt_tokens".toList)
          (completeLines (respOaiEx.chunks.map Prod.snd).flatten) with
        | some n => n
        | none => jsRound4 tpEx.length)) :=
  ⟨by decide,
    ⟨(c4_amended tpEx mOai wOaiEx
        { apiKey := "sk-test".toList, baseUrl := "https://api.openai.com/v1".toList }
        respOaiEx (by decide) (by decide) rfl (by decide) (by decide) rfl rfl
        (by decide)).1,
      (c4_amended tpEx mOai wOaiEx
        { apiKey := "sk-test".toList, baseUrl := "https://api.openai.com/v1".toList }
        respOaiEx (by decide) (by decide) rfl (by decide) (by decide) rfl rfl
        (by decide)).2.1⟩⟩
